import Mathlib

/-!
Shallow embedding of the decision-and-orchestration engine of the
`my_trading` repository, together with proofs of the claims of the spec.

Embedded components:
* `src/agents/risk_controller.py` — `RiskController.validate_trade`,
  `_validate_buy`, `_validate_sell`, `_get_risk_context`, `_log_decision`.
* `src/utils/gemini_client.py` — `call_with_retry`, `_is_rate_limit_error`.
* `src/api/routers/orchestrator.py` — `run_orchestrator` (POST /orchestrator/run).
* `src/main_orchestrator.py` — `run_postmarket`, `_has_run_today`.

Monetary amounts and prices are modelled as rationals (`ℚ`); the Python
`int(x)` conversion (truncation toward zero) is modelled by `pyInt`.
Database state is passed explicitly; side effects (audit-log inserts,
collaborator invocations) are returned as explicit lists.
-/

namespace MyTrading

/-- The Python `int(x)` conversion applied to a real-valued expression: truncation toward
zero. For nonnegative arguments this is the floor. -/
def pyInt (q : ℚ) : ℤ := if 0 ≤ q then ⌊q⌋ else -⌊-q⌋

/-! ## Risk controller: data model (`risk_controller.py`) -/

/-- Risk configuration; defaults set in `RiskController.__init__`. -/
structure RiskConfig where
  max_position_size_pct : ℚ
  max_sector_exposure_pct : ℚ
  max_volatility_pct : ℚ
  risk_per_trade_pct : ℚ
  stop_loss_atr_multiplier : ℚ
deriving Repr, DecidableEq

/-- The default configuration from `RiskController.__init__`:
20% position cap, 40% sector cap, 10% volatility cap, 1.5% risk per trade,
2.5× ATR stop multiplier. -/
def defaultRiskConfig : RiskConfig :=
  ⟨20/100, 40/100, 10/100, 15/1000, 25/10⟩

/-- The dict returned by `RiskController._get_risk_context`. -/
structure RiskContext where
  price : ℚ
  atr : ℚ
  portfolio_equity : ℚ
  cash_balance : ℚ
  current_quantity : ℚ
  current_position_value : ℚ
  sector : String
  sector_exposure : ℚ
deriving Repr, DecidableEq

/-- A trade recommendation dict as consumed by `validate_trade`: the fields
it reads are `symbol`, `action` and the optional `stop_loss`.
`stop_loss = some 0` and `stop_loss = none` are both falsy in the Python
`if not stop_loss` test. -/
structure Recommendation where
  symbol : String
  action : String
  stop_loss : Option ℚ
deriving Repr, DecidableEq

/-- The decision dict returned by `validate_trade` and its helpers; keys
absent from a given return are `none`. -/
structure RiskDecision where
  approved : Bool
  reason : String
  approved_shares : Option ℤ
  approved_cost : Option ℚ
  calculated_stop_loss : Option ℚ
  risk_per_trade : Option ℚ
  position_pct : Option ℚ
  approved_value : Option ℚ
deriving Repr, DecidableEq

/-- A veto return: `approved = false` together with a reason string. -/
def vetoD (reason : String) : RiskDecision :=
  ⟨false, reason, none, none, none, none, none, none⟩

/-! ## Risk controller: BUY validation (`_validate_buy`) -/

/-- Stop-loss selection in `_validate_buy` lines 113–119: use the
stop of the recommendation if truthy; else `price − mult×atr` when `atr` is
truthy; else the 5%-below-entry fallback. -/
def stopLossOf (cfg : RiskConfig) (price atr : ℚ) (recStop : Option ℚ) : ℚ :=
  match recStop with
  | some s =>
      if s ≠ 0 then s
      else if atr ≠ 0 then price - cfg.stop_loss_atr_multiplier * atr
      else price * (95/100)
  | none =>
      if atr ≠ 0 then price - cfg.stop_loss_atr_multiplier * atr
      else price * (95/100)

/-- Check 2 of `_validate_buy` (lines 140–151): if the proposed cost exceeds
cash, reduce the share count to `int(cash / price)`, vetoing when that is
below one share. -/
def checkCash (cash price : ℚ) (shares : ℤ) (cost : ℚ) :
    Except RiskDecision (ℤ × ℚ) :=
  if cost > cash then
    let adjusted := pyInt (cash / price)
    if adjusted < 1 then
      .error (vetoD "Insufficient cash")
    else
      .ok (adjusted, (adjusted : ℚ) * price)
  else
    .ok (shares, cost)

/-- Check 3 of `_validate_buy` (lines 153–172): if existing position value
plus the cost breaches `equity × max_position_size_pct`, reduce the shares to
`int(max_allowed_cost / price)`, vetoing when even one share does not fit. -/
def checkPositionLimit (equity maxPct current price : ℚ) (shares : ℤ)
    (cost : ℚ) : Except RiskDecision (ℤ × ℚ) :=
  if current + cost > equity * maxPct then
    let max_allowed_cost := equity * maxPct - current
    if max_allowed_cost < price then
      .error (vetoD "Position size limit")
    else
      let adjusted := pyInt (max_allowed_cost / price)
      if adjusted < 1 then
        .error (vetoD "Cannot add to position - already at limit")
      else
        .ok (adjusted, (adjusted : ℚ) * price)
  else
    .ok (shares, cost)

/-- `RiskController._validate_buy`. Mirrors the Python control flow:
price sanity check, fixed-fractional sizing, cash cap, position-size cap,
sector-exposure veto, volatility veto, then approval. Note that the
`position_pct` of the approval is computed from `new_position_value`, the
value bound *before* the position-size cap may have reduced the shares —
exactly as in the source (line 201 uses the variable set at line 154). -/
def validate_buy (cfg : RiskConfig) (symbol : String) (rec : Recommendation)
    (ctx : RiskContext) : RiskDecision :=
  let price := ctx.price
  let atr := ctx.atr
  let equity := ctx.portfolio_equity
  let cash := ctx.cash_balance
  let current_position_value := ctx.current_position_value
  let sector_exposure := ctx.sector_exposure
  if price ≤ 0 then
    vetoD ("Invalid price data for " ++ symbol)
  else
    let risk_amount := equity * cfg.risk_per_trade_pct
    let stop_loss := stopLossOf cfg price atr rec.stop_loss
    let risk_per_share := price - stop_loss
    if risk_per_share ≤ 0 then
      vetoD "Stop loss is above entry price (invalid setup)"
    else
      let proposed_shares := pyInt (risk_amount / risk_per_share)
      let proposed_cost := (proposed_shares : ℚ) * price
      if proposed_shares < 1 then
        vetoD "Position size too small (risk allows less than 1 share)"
      else
        match checkCash cash price proposed_shares proposed_cost with
        | .error d => d
        | .ok (shares2, cost2) =>
          let new_position_value := current_position_value + cost2
          match checkPositionLimit equity cfg.max_position_size_pct
              current_position_value price shares2 cost2 with
          | .error d => d
          | .ok (shares3, cost3) =>
            let new_sector_exposure := sector_exposure + cost3
            if new_sector_exposure > equity * cfg.max_sector_exposure_pct then
              vetoD "Sector limit"
            else if atr ≠ 0 ∧ price > 0 ∧ atr / price > cfg.max_volatility_pct then
              vetoD "Excessive volatility"
            else
              ⟨true, "All risk checks passed", some shares3, some cost3,
                some stop_loss, some risk_amount,
                some (new_position_value / equity * 100), none⟩

/-! ## Risk controller: SELL validation (`_validate_sell`) -/

/-- `RiskController._validate_sell`: veto when no position is held, else
approve `int(current_quantity)` shares; `sell_value` is zero when `price`
is falsy. -/
def validate_sell (symbol : String) (rec : Recommendation)
    (ctx : RiskContext) : RiskDecision :=
  let current_quantity := ctx.current_quantity
  if current_quantity ≤ 0 then
    vetoD "Cannot sell. No position held."
  else
    let price := ctx.price
    let sell_value := if price ≠ 0 then current_quantity * price else 0
    ⟨true, "Sell approved", some (pyInt current_quantity), none, none, none,
      none, some sell_value⟩

/-! ## Risk controller: database context (`_get_risk_context`) -/

/-- The rows `_get_risk_context` reads from SQLite for one symbol:
the latest `market_data` row `(price, atr)`, the latest
`portfolio_snapshot` row `(total_equity, cash_balance)`, the holding row
`(quantity, current_value)` for the symbol in the latest snapshot, the
`stock_metadata.sector` of the symbol, and `SUM(current_value)` over the
holdings of the latest snapshot in that sector (`none` models SQL NULL / no row). -/
structure DB where
  market : Option (ℚ × ℚ)
  portfolio : Option (ℚ × ℚ)
  position : Option (ℚ × ℚ)
  sector : Option String
  sector_value_sum : Option ℚ
deriving Repr, DecidableEq

/-- `RiskController._get_risk_context`: missing market data defaults price
and atr to 0; a missing portfolio snapshot defaults equity and cash to
10000; a missing holding defaults quantity and value to 0; sector exposure
is 0 for an unknown sector and otherwise the (truthy) sector value sum. -/
def get_risk_context (db : DB) : RiskContext :=
  let sector := match db.sector with
    | some s => s
    | none => "Unknown"
  let sector_exposure :=
    if sector ≠ "Unknown" then
      match db.sector_value_sum with
      | some v => if v ≠ 0 then v else 0
      | none => 0
    else 0
  ⟨(db.market.map Prod.fst).getD 0,
   (db.market.map Prod.snd).getD 0,
   (db.portfolio.map Prod.fst).getD 10000,
   (db.portfolio.map Prod.snd).getD 10000,
   (db.position.map Prod.fst).getD 0,
   (db.position.map Prod.snd).getD 0,
   sector,
   sector_exposure⟩

/-! ## Risk controller: top-level dispatch and audit log (`validate_trade`) -/

/-- One row of the `risk_decisions` audit table, as inserted by
`RiskController._log_decision`. -/
structure AuditRow where
  symbol : String
  action : String
  approved : Bool
  reason : String
  approved_shares : Option ℤ
deriving Repr, DecidableEq

/-- `RiskController.validate_trade`: HOLD returns immediately; otherwise the
risk context is fetched, the action dispatched, and exactly one audit row is
appended via `_log_decision`. The second component is the list of audit rows
inserted during the call. -/
def validate_trade (cfg : RiskConfig) (rec : Recommendation) (db : DB) :
    RiskDecision × List AuditRow :=
  let symbol := rec.symbol
  let action := rec.action
  if action = "HOLD" then
    (⟨true, "No action required", none, none, none, none, none, none⟩, [])
  else
    let context := get_risk_context db
    let result :=
      if action = "BUY" then validate_buy cfg symbol rec context
      else if action = "SELL" then validate_sell symbol rec context
      else vetoD ("Invalid action: " ++ action)
    (result, [⟨symbol, action, result.approved, result.reason,
      result.approved_shares⟩])

/-! ## Resilient call wrapper (`gemini_client.py`) -/

/-- Bool-valued test that `pat` occurs at the head of `l`. -/
def leadMatch : List Char → List Char → Bool
  | [], _ => true
  | _ :: _, [] => false
  | a :: as, b :: bs => a == b && leadMatch as bs

/-- Bool-valued test that `pat` occurs contiguously anywhere inside `l`
(the Python `pat in s` test on strings). -/
def hasSeq (pat : List Char) : List Char → Bool
  | [] => leadMatch pat []
  | c :: cs => leadMatch pat (c :: cs) || hasSeq pat cs

/-- `pat in s` on Python strings. -/
def strContains (s pat : String) : Bool := hasSeq pat.toList s.toList

/-- What `_is_rate_limit_error` inspects about a raised exception:
`type(e).__name__` and `str(e)`. -/
structure PyExceptionInfo where
  typeName : String
  message : String
deriving Repr, DecidableEq

/-- `gemini_client._is_rate_limit_error`: the exception type name contains
`ResourceExhausted` or `RateLimitError`, or the lowercased message contains
`429`, `resource exhausted` or `rate limit`. -/
def is_rate_limit_error (e : PyExceptionInfo) : Bool :=
  if strContains e.typeName "ResourceExhausted" then true
  else if strContains e.typeName "RateLimitError" then true
  else
    let error_str := e.message.toLower
    strContains error_str "429" || strContains error_str "resource exhausted"
      || strContains error_str "rate limit"

/-- Outcome of one invocation of the wrapped `call_fn`: a successful return
value, or a raised exception. -/
inductive CallOutcome where
  | success (v : ℕ)
  | raises (e : PyExceptionInfo)
deriving Repr, DecidableEq

/-- Observable behaviour of one `call_with_retry` invocation: the returned
value (`none` on any failure), how many times `call_fn` was invoked, and the
backoff sleeps performed between attempts, in order. -/
structure RetryResult where
  result : Option ℕ
  calls : ℕ
  sleeps : List ℚ
deriving Repr, DecidableEq

/-- The retry loop of `call_with_retry`, lines 92–115: attempt `attempt`
with `fuel` loop iterations remaining (`fuel` starts at `max_retries + 1`,
the range of the Python `for` loop). A success returns the value; a
non-rate-limit exception returns `none` at once; a rate-limit exception
sleeps `base_delay * 2 ^ attempt` and retries while `attempt < max_retries`,
and after the final attempt falls out of the loop returning `none`. -/
def retryLoop (outcome : ℕ → CallOutcome) (max_retries : ℕ) (base_delay : ℚ) :
    ℕ → ℕ → RetryResult
  | _, 0 => ⟨none, 0, []⟩
  | attempt, fuel + 1 =>
    match outcome attempt with
    | .success v => ⟨some v, 1, []⟩
    | .raises e =>
      if is_rate_limit_error e then
        if attempt < max_retries then
          let r := retryLoop outcome max_retries base_delay (attempt + 1) fuel
          ⟨r.result, r.calls + 1, base_delay * 2 ^ attempt :: r.sleeps⟩
        else ⟨none, 1, []⟩
      else ⟨none, 1, []⟩

/-- `gemini_client.call_with_retry`, with the sequence of attempt outcomes
supplied as an oracle: `outcome k` is what the call to `call_fn` does on
loop iteration `k`. -/
def call_with_retry (outcome : ℕ → CallOutcome) (max_retries : ℕ)
    (base_delay : ℚ) : RetryResult :=
  retryLoop outcome max_retries base_delay 0 (max_retries + 1)

/-! ## Job ledger and admission (`api/routers/orchestrator.py`) -/

/-- A row of the `orchestrator_runs` table, restricted to the columns the
admission path reads and writes. -/
structure JobRow where
  id : ℕ
  mode : String
  status : String
  triggered_by : String
deriving Repr, DecidableEq

/-- The persistent ledger: the `orchestrator_runs` rows plus the
autoincrement counter supplying the next row id. -/
structure Ledger where
  rows : List JobRow
  nextId : ℕ
deriving Repr, DecidableEq

/-- A job counted by the admission guard:
`status IN (\x27pending\x27, \x27running\x27)`. -/
def nonTerminal (r : JobRow) : Bool :=
  r.status == "pending" || r.status == "running"

/-- Outcome of `POST /orchestrator/run`: the 200 response with the new job
id, the 409 conflict, or the 400 invalid-mode rejection. -/
inductive RunResult where
  | ok (job_id : ℕ)
  | conflict
  | invalidMode
deriving Repr, DecidableEq

def RunResult.isOk : RunResult → Bool
  | .ok _ => true
  | _ => false

/-- `valid_modes` from `run_orchestrator`. -/
def validModes : List String := ["premarket", "market", "postmarket", "review"]

/-- The admission portion of the `run_orchestrator` route handler: reject an
invalid mode, then — inside one `BEGIN IMMEDIATE` transaction — count
non-terminal rows, returning 409 without inserting when the count is
positive, and otherwise insert exactly one new `pending` row and return its
id. The transaction makes check and insert a single atomic step, which is
what this state-passing function models. -/
def run_orchestrator_endpoint (mode : String) (st : Ledger) :
    RunResult × Ledger :=
  if mode ∉ validModes then (.invalidMode, st)
  else if st.rows.countP (fun r => nonTerminal r) > 0 then (.conflict, st)
  else
    (.ok st.nextId,
     ⟨st.rows ++ [⟨st.nextId, mode, "pending", "manual"⟩], st.nextId + 1⟩)

/-- A sequence of admission attempts hitting the endpoint one after another
(the serialization order imposed by the exclusive transaction). -/
def admitSeq : List String → Ledger → List RunResult × Ledger
  | [], st => ([], st)
  | m :: ms, st =>
    let first := run_orchestrator_endpoint m st
    let rest := admitSeq ms first.2
    (first.1 :: rest.1, rest.2)

/-! ## Postmarket idempotency guard (`main_orchestrator.py`) -/

/-- A row of `orchestrator_runs` as read by `_has_run_today`:
`started_at_day` is `date(started_at)`, `none` when `started_at` is NULL. -/
structure RunLedgerRow where
  mode : String
  status : String
  started_at_day : Option ℤ
deriving Repr, DecidableEq

/-- `TradingOrchestrator._has_run_today`: count rows of the given mode with
status `completed` whose `started_at` date is today. -/
def has_run_today (rows : List RunLedgerRow) (mode : String) (today : ℤ) :
    Bool :=
  rows.countP
    (fun r => r.mode == mode && r.status == "completed"
      && r.started_at_day == some today) > 0

/-- Collaborator invocations observable during `run_postmarket`: the
notification call, the two read-only summaries, and the `_log_run` ledger
insert. -/
inductive PMEffect where
  | sendDailySummary
  | getLatestSnapshot
  | getRiskSummary
  | logRun (mode status : String)
deriving Repr, DecidableEq

/-- `TradingOrchestrator.run_postmarket`: skip entirely when the guard finds
a completed postmarket run dated today; otherwise invoke the notifier,
portfolio and risk collaborators and log the run (status `failed` when the
summary raises, in which case the later collaborators are never reached and
the exception is re-raised after the `finally` write). Returns the effect
trace and the ledger after the call. -/
def run_postmarket (today : ℤ) (rows : List RunLedgerRow)
    (summaryRaises : Bool) : List PMEffect × List RunLedgerRow :=
  if has_run_today rows "postmarket" today then ([], rows)
  else if summaryRaises then
    ([.sendDailySummary, .logRun "postmarket" "failed"],
     rows ++ [⟨"postmarket", "failed", some today⟩])
  else
    ([.sendDailySummary, .getLatestSnapshot, .getRiskSummary,
      .logRun "postmarket" "completed"],
     rows ++ [⟨"postmarket", "completed", some today⟩])

/-! ## Concrete inputs used by counterexamples and witnesses -/

/-- Database state holding a 10-share position worth 1000 in a market whose
latest row has price 100 and atr 50 (atr/price = 0.5, far above the 10%
volatility cap). -/
def dbVolatileSell : DB :=
  ⟨some (100, 50), some (10000, 5000), some (10, 1000), some "Tech",
    some 1000⟩

/-- Database state holding a fractional position of 5/2 shares. -/
def dbFractional : DB :=
  ⟨some (100, 2), some (10000, 5000), some (5/2, 250), some "Tech",
    some 250⟩

/-- Database state with market data but no portfolio snapshot, no holding,
and no sector metadata. -/
def dbNoPortfolio : DB := ⟨some (100, 4), none, none, none, none⟩

/-- Fully empty database. -/
def dbEmpty : DB := ⟨none, none, none, none, none⟩

/-- Database state for the `position_pct` bug: equity 10000, cash 10000, no
existing position, price 100, atr 1. With the recommended stop of 95 the
risk sizing proposes 30 shares (cost 3000), which the position-size cap
reduces to 20 shares (cost 2000 = the 20% cap), yet `position_pct` is
reported from the unreduced 3000. -/
def dbPositionPct : DB :=
  ⟨some (100, 1), some (10000, 10000), none, none, none⟩

/-- The BUY recommendation (stop loss 95) used on `dbPositionPct`. -/
def recStop95 : Recommendation := ⟨"AAPL", "BUY", some 95⟩

/-- A plain BUY recommendation with no stop loss attached. -/
def recBuyPlain : Recommendation := ⟨"AAPL", "BUY", none⟩

/-- A plain SELL recommendation. -/
def recSellPlain : Recommendation := ⟨"AAPL", "SELL", none⟩

/-- A HOLD recommendation. -/
def recHoldPlain : Recommendation := ⟨"AAPL", "HOLD", none⟩

/-- An attempt oracle whose every invocation raises the quota-exhausted
exception of the Google client. -/
def outcomeAllRateLimited : ℕ → CallOutcome :=
  fun _ => .raises ⟨"ResourceExhausted", "quota exceeded"⟩

/-- An empty job ledger. -/
def ledgerEmpty : Ledger := ⟨[], 1⟩

/-- A run ledger holding one completed postmarket run dated day 20251012. -/
def pmRowsToday : List RunLedgerRow :=
  [⟨"postmarket", "completed", some 20251012⟩]

/-! ## Helper lemmas -/

theorem pyInt_of_nonneg {q : ℚ} (h : 0 ≤ q) : pyInt q = ⌊q⌋ := by
  simp [pyInt, h]

theorem nonneg_of_one_le_pyInt {q : ℚ} (h : 1 ≤ pyInt q) : 0 ≤ q := by
  by_contra hq
  push_neg at hq
  have hq' : ¬ (0 : ℚ) ≤ q := not_le.mpr hq
  have hfl : (0 : ℤ) ≤ ⌊-q⌋ := Int.floor_nonneg.mpr (by linarith)
  simp only [pyInt, hq', if_false] at h
  omega

theorem pyInt_cast_le {q : ℚ} (h : 0 ≤ q) : (pyInt q : ℚ) ≤ q := by
  rw [pyInt_of_nonneg h]
  exact Int.floor_le q

theorem pyInt_intCast (n : ℤ) : pyInt (n : ℚ) = n := by
  rcases le_or_lt 0 (n : ℚ) with h | h
  · rw [pyInt_of_nonneg h, Int.floor_intCast]
  · have : ¬ (0 : ℚ) ≤ (n : ℚ) := not_le.mpr h
    simp only [pyInt, this, if_false]
    rw [← Int.cast_neg, Int.floor_intCast]
    omega

/-- If `1 ≤ pyInt (a / b)` and `0 < b`, the truncated quotient scaled back by
`b` does not exceed `a` (the core of the "reduce shares to fit" steps). -/
theorem pyInt_div_mul_le {a b : ℚ} (hb : 0 < b) (h : 1 ≤ pyInt (a / b)) :
    (pyInt (a / b) : ℚ) * b ≤ a := by
  have hq : 0 ≤ a / b := nonneg_of_one_le_pyInt h
  have := pyInt_cast_le hq
  calc (pyInt (a / b) : ℚ) * b ≤ (a / b) * b := by
        exact mul_le_mul_of_nonneg_right this (le_of_lt hb)
    _ = a := div_mul_cancel₀ a (ne_of_gt hb)

@[simp] theorem vetoD_approved (r : String) : (vetoD r).approved = false := rfl


theorem checkCash_error {cash price cost : ℚ} {shares : ℤ} {d : RiskDecision}
    (h : checkCash cash price shares cost = .error d) : d.approved = false := by
  simp only [checkCash] at h
  split_ifs at h <;> simp_all only [Except.error.injEq, reduceCtorEq]
  subst h
  rfl

theorem checkPositionLimit_error {equity maxPct current price cost : ℚ}
    {shares : ℤ} {d : RiskDecision}
    (h : checkPositionLimit equity maxPct current price shares cost
      = .error d) : d.approved = false := by
  simp only [checkPositionLimit] at h
  split_ifs at h <;> simp_all only [Except.error.injEq, reduceCtorEq]
  · subst h; rfl
  · subst h; rfl

/-- Whatever a successful cash check returns costs at most `cash`. -/
theorem checkCash_ok_cost_le {cash price cost : ℚ} {shares s2 : ℤ} {c2 : ℚ}
    (hp : 0 < price) (h : checkCash cash price shares cost = .ok (s2, c2)) :
    c2 ≤ cash := by
  simp only [checkCash] at h
  split_ifs at h with h1 h2
  · simp only [Except.ok.injEq, Prod.mk.injEq] at h
    obtain ⟨hs, hc⟩ := h
    have hone : 1 ≤ pyInt (cash / price) := not_lt.mp h2
    have hmul := pyInt_div_mul_le hp hone
    linarith
  · simp only [Except.ok.injEq, Prod.mk.injEq] at h
    obtain ⟨hs, hc⟩ := h
    linarith

/-- A successful position-limit check leaves the new position value within
the cap. -/
theorem checkPositionLimit_ok_cap {equity maxPct current price cost : ℚ}
    {shares s3 : ℤ} {c3 : ℚ} (hp : 0 < price)
    (h : checkPositionLimit equity maxPct current price shares cost
      = .ok (s3, c3)) :
    current + c3 ≤ equity * maxPct := by
  simp only [checkPositionLimit] at h
  split_ifs at h with h1 h2 h3
  · simp only [Except.ok.injEq, Prod.mk.injEq] at h
    obtain ⟨hs, hc⟩ := h
    have hone : 1 ≤ pyInt ((equity * maxPct - current) / price) := not_lt.mp h3
    have hmul := pyInt_div_mul_le hp hone
    linarith
  · simp only [Except.ok.injEq, Prod.mk.injEq] at h
    obtain ⟨hs, hc⟩ := h
    linarith

/-- The position-limit check never increases the trade cost. -/
theorem checkPositionLimit_ok_le {equity maxPct current price cost : ℚ}
    {shares s3 : ℤ} {c3 : ℚ} (hp : 0 < price)
    (h : checkPositionLimit equity maxPct current price shares cost
      = .ok (s3, c3)) :
    c3 ≤ cost := by
  simp only [checkPositionLimit] at h
  split_ifs at h with h1 h2 h3
  · simp only [Except.ok.injEq, Prod.mk.injEq] at h
    obtain ⟨hs, hc⟩ := h
    have hone : 1 ≤ pyInt ((equity * maxPct - current) / price) := not_lt.mp h3
    have hmul := pyInt_div_mul_le hp hone
    linarith
  · simp only [Except.ok.injEq, Prod.mk.injEq] at h
    obtain ⟨hs, hc⟩ := h
    linarith

/-- Structure of every approved BUY: a positive price, a failed volatility
trigger, and a successful pass through the cash and position-size checks
whose output the approval reports (with `position_pct` computed from the
cost as it stood *before* the position-size reduction). -/
theorem validate_buy_spec (cfg : RiskConfig) (symbol : String)
    (rec : Recommendation) (ctx : RiskContext) :
    (validate_buy cfg symbol rec ctx).approved = false ∨
    (0 < ctx.price ∧
     ¬ (ctx.atr ≠ 0 ∧ ctx.price > 0 ∧
        ctx.atr / ctx.price > cfg.max_volatility_pct) ∧
     ∃ s1 s2 s3 : ℤ, ∃ c2 c3 : ℚ,
       checkCash ctx.cash_balance ctx.price s1 ((s1 : ℚ) * ctx.price)
         = .ok (s2, c2) ∧
       checkPositionLimit ctx.portfolio_equity cfg.max_position_size_pct
         ctx.current_position_value ctx.price s2 c2 = .ok (s3, c3) ∧
       validate_buy cfg symbol rec ctx =
         ⟨true, "All risk checks passed", some s3, some c3,
          some (stopLossOf cfg ctx.price ctx.atr rec.stop_loss),
          some (ctx.portfolio_equity * cfg.risk_per_trade_pct),
          some ((ctx.current_position_value + c2) /
            ctx.portfolio_equity * 100), none⟩) := by
  simp only [validate_buy]
  split
  · exact Or.inl rfl
  next hp =>
    split
    · exact Or.inl rfl
    next hrps =>
      split
      · exact Or.inl rfl
      next hmin =>
        split
        next d heq => exact Or.inl (checkCash_error heq)
        next s2 c2 heq1 =>
          split
          next d heq => exact Or.inl (checkPositionLimit_error heq)
          next s3 c3 heq2 =>
            split
            · exact Or.inl rfl
            next hsec =>
              split
              · exact Or.inl rfl
              next hvol =>
                exact Or.inr ⟨not_le.mp hp, hvol,
                  _, _, _, _, _, heq1, heq2, rfl⟩

/-! ## Dispatch lemmas for `validate_trade` -/

theorem validate_trade_fst_buy (cfg : RiskConfig) (rec : Recommendation)
    (db : DB) (hact : rec.action = "BUY") :
    (validate_trade cfg rec db).1
      = validate_buy cfg rec.symbol rec (get_risk_context db) := by
  simp [validate_trade, hact]

theorem validate_trade_fst_sell (cfg : RiskConfig) (rec : Recommendation)
    (db : DB) (hact : rec.action = "SELL") :
    (validate_trade cfg rec db).1
      = validate_sell rec.symbol rec (get_risk_context db) := by
  simp [validate_trade, hact]

/-! ## Shared concrete evaluations -/

/-- On `dbNoPortfolio` (market data present, portfolio table empty) the
plain BUY is approved against the defaulted 10000 equity and cash:
stop 90, risk 150, 15 shares costing 1500. -/
theorem eval_noportfolio_buy :
    (validate_trade defaultRiskConfig recBuyPlain dbNoPortfolio).1 =
      ⟨true, "All risk checks passed", some 15, some 1500, some 90, some 150,
        some 15, none⟩ := by
  norm_num [validate_trade, validate_buy, checkCash, checkPositionLimit,
    stopLossOf, pyInt, get_risk_context, defaultRiskConfig, recBuyPlain,
    dbNoPortfolio, vetoD]
  simp +decide

/-- On `dbPositionPct` the BUY with stop 95 is approved for 20 shares
(cost 2000, the 20% cap), but `position_pct` reports 30, computed from the
unreduced cost of 3000. -/
theorem eval_position_pct_buy :
    (validate_trade defaultRiskConfig recStop95 dbPositionPct).1 =
      ⟨true, "All risk checks passed", some 20, some 2000, some 95, some 150,
        some 30, none⟩ := by
  norm_num [validate_trade, validate_buy, checkCash, checkPositionLimit,
    stopLossOf, pyInt, get_risk_context, defaultRiskConfig, recStop95,
    dbPositionPct, vetoD]
  simp +decide

/-- On `dbVolatileSell` (10 shares held, atr/price = 1/2) the SELL is
approved in full despite the volatility. -/
theorem eval_volatile_sell :
    (validate_trade defaultRiskConfig recSellPlain dbVolatileSell).1 =
      ⟨true, "Sell approved", some 10, none, none, none, none, some 1000⟩ := by
  norm_num [validate_trade, validate_sell, get_risk_context, recSellPlain,
    dbVolatileSell, pyInt, vetoD]
  simp +decide

/-! ## Claims about the risk validation engine -/

/-- C1: for every BUY proposal that `validate_trade` approves, the returned
`approved_cost` is at most the cash balance in the risk context at decision
time — if the risk-sized cost exceeds cash, the shares are cut to
`int(cash / price)`, and the later position-size cap can only lower the
cost further. -/
theorem buy_approved_cost_le_cash (cfg : RiskConfig) (rec : Recommendation)
    (db : DB) (hact : rec.action = "BUY")
    (happ : (validate_trade cfg rec db).1.approved = true) :
    ∃ c : ℚ, (validate_trade cfg rec db).1.approved_cost = some c ∧
      c ≤ (get_risk_context db).cash_balance := by
  rw [validate_trade_fst_buy cfg rec db hact] at happ ⊢
  rcases validate_buy_spec cfg rec.symbol rec (get_risk_context db) with
    hf | ⟨hp, hnvol, s1, s2, s3, c2, c3, heq1, heq2, heqv⟩
  · rw [hf] at happ
    cases happ
  · refine ⟨c3, ?_, ?_⟩
    · rw [heqv]
    · have h1 := checkCash_ok_cost_le hp heq1
      have h2 := checkPositionLimit_ok_le hp heq2
      linarith

/-- Witness for C1: on `dbNoPortfolio` the plain BUY is approved and the
theorem yields a cost (1500) bounded by the defaulted cash (10000). -/
theorem buy_approved_cost_le_cash_witness :
    recBuyPlain.action = "BUY" ∧
    (validate_trade defaultRiskConfig recBuyPlain dbNoPortfolio).1.approved
      = true ∧
    ∃ c : ℚ,
      (validate_trade defaultRiskConfig recBuyPlain
        dbNoPortfolio).1.approved_cost = some c ∧
      c ≤ (get_risk_context dbNoPortfolio).cash_balance :=
  ⟨rfl, by rw [eval_noportfolio_buy],
   buy_approved_cost_le_cash defaultRiskConfig recBuyPlain dbNoPortfolio rfl
     (by rw [eval_noportfolio_buy])⟩

/-- C3: for every BUY proposal that `validate_trade` approves, the existing
position value plus the returned `approved_cost` stays within
`equity × max_position_size_pct` (proved exactly, hence within any
nonnegative tolerance): a breach reduces the shares to
`int(max_allowed_cost / price)` and the trade is vetoed when even one share
would exceed the cap. -/
theorem buy_approved_position_within_cap (cfg : RiskConfig)
    (rec : Recommendation) (db : DB) (hact : rec.action = "BUY")
    (happ : (validate_trade cfg rec db).1.approved = true) :
    ∃ c : ℚ, (validate_trade cfg rec db).1.approved_cost = some c ∧
      (get_risk_context db).current_position_value + c ≤
        (get_risk_context db).portfolio_equity * cfg.max_position_size_pct := by
  rw [validate_trade_fst_buy cfg rec db hact] at happ ⊢
  rcases validate_buy_spec cfg rec.symbol rec (get_risk_context db) with
    hf | ⟨hp, hnvol, s1, s2, s3, c2, c3, heq1, heq2, heqv⟩
  · rw [hf] at happ
    cases happ
  · refine ⟨c3, ?_, ?_⟩
    · rw [heqv]
    · exact checkPositionLimit_ok_cap hp heq2

/-- Witness for C3: on `dbNoPortfolio` the BUY is approved and its cost
(1500) plus the empty position stays within 20% of the 10000 equity. -/
theorem buy_approved_position_within_cap_witness :
    recBuyPlain.action = "BUY" ∧
    (validate_trade defaultRiskConfig recBuyPlain dbNoPortfolio).1.approved
      = true ∧
    ∃ c : ℚ,
      (validate_trade defaultRiskConfig recBuyPlain
        dbNoPortfolio).1.approved_cost = some c ∧
      (get_risk_context dbNoPortfolio).current_position_value + c ≤
        (get_risk_context dbNoPortfolio).portfolio_equity *
          defaultRiskConfig.max_position_size_pct :=
  ⟨rfl, by rw [eval_noportfolio_buy],
   buy_approved_position_within_cap defaultRiskConfig recBuyPlain
     dbNoPortfolio rfl (by rw [eval_noportfolio_buy])⟩

/-- C4, counterexample: the claim quantifies over every action, but
`_validate_sell` never consults the volatility filter. On `dbVolatileSell`
the ATR is 50% of price — far above the 10% cap — yet the SELL is
approved. -/
theorem sell_ignores_volatility :
    (validate_trade defaultRiskConfig recSellPlain
      dbVolatileSell).1.approved = true ∧
    (get_risk_context dbVolatileSell).atr /
        (get_risk_context dbVolatileSell).price >
      defaultRiskConfig.max_volatility_pct := by
  constructor
  · rw [eval_volatile_sell]
  · norm_num [get_risk_context, dbVolatileSell, defaultRiskConfig]

/-- C4, amended: for every BUY proposal whose context has
`atr / price > max_volatility_pct` (with a nonnegative configured cap),
`validate_trade` vetoes, whatever the cash, position, sector exposure or
stop-loss; SELL and HOLD proposals are not subject to the filter. -/
theorem buy_volatility_always_vetoed (cfg : RiskConfig)
    (rec : Recommendation) (db : DB)
    (hcfg : 0 ≤ cfg.max_volatility_pct) (hact : rec.action = "BUY")
    (hvol : (get_risk_context db).atr / (get_risk_context db).price >
      cfg.max_volatility_pct) :
    (validate_trade cfg rec db).1.approved = false := by
  rw [validate_trade_fst_buy cfg rec db hact]
  rcases validate_buy_spec cfg rec.symbol rec (get_risk_context db) with
    hf | ⟨hp, hnvol, hrest⟩
  · exact hf
  · exfalso
    apply hnvol
    refine ⟨?_, hp, hvol⟩
    intro h0
    have hdivpos : 0 < (get_risk_context db).atr /
        (get_risk_context db).price := lt_of_le_of_lt hcfg hvol
    rw [h0, zero_div] at hdivpos
    exact lt_irrefl 0 hdivpos

/-- Witness for the amended C4: a BUY on the same over-volatile context is
vetoed. -/
theorem buy_volatility_always_vetoed_witness :
    0 ≤ defaultRiskConfig.max_volatility_pct ∧
    recBuyPlain.action = "BUY" ∧
    (get_risk_context dbVolatileSell).atr /
        (get_risk_context dbVolatileSell).price >
      defaultRiskConfig.max_volatility_pct ∧
    (validate_trade defaultRiskConfig recBuyPlain
      dbVolatileSell).1.approved = false :=
  ⟨by norm_num [defaultRiskConfig], rfl,
   by norm_num [get_risk_context, dbVolatileSell, defaultRiskConfig],
   buy_volatility_always_vetoed defaultRiskConfig recBuyPlain dbVolatileSell
     (by norm_num [defaultRiskConfig]) rfl
     (by norm_num [get_risk_context, dbVolatileSell, defaultRiskConfig])⟩

/-- C5, counterexample: holdings quantities are DECIMAL(10,4) and
`_validate_sell` truncates with `int(...)`. With 5/2 shares held the SELL
is approved for 2 shares — not the full held quantity. -/
theorem sell_fractional_quantity_truncated :
    (validate_trade defaultRiskConfig recSellPlain
      dbFractional).1.approved = true ∧
    (get_risk_context dbFractional).current_quantity = 5/2 ∧
    (validate_trade defaultRiskConfig recSellPlain
      dbFractional).1.approved_shares = some 2 ∧
    ((2 : ℚ) ≠ (5/2 : ℚ)) := by
  refine ⟨?_, ?_, ?_, by norm_num⟩ <;>
    norm_num [validate_trade, validate_sell, get_risk_context, recSellPlain,
      dbFractional, pyInt, vetoD] <;>
    simp +decide

/-- C5, amended: a SELL is approved iff the held quantity is positive, and
an approved SELL always carries `approved_shares = int(current_quantity)`,
the held quantity truncated toward zero — which is the full held quantity
whenever that quantity is a whole number of shares. -/
theorem sell_approves_truncated_quantity (cfg : RiskConfig)
    (rec : Recommendation) (db : DB) (hact : rec.action = "SELL") :
    ((validate_trade cfg rec db).1.approved = true ↔
      0 < (get_risk_context db).current_quantity) ∧
    ((validate_trade cfg rec db).1.approved = true →
      (validate_trade cfg rec db).1.approved_shares =
        some (pyInt (get_risk_context db).current_quantity)) ∧
    (∀ n : ℤ, (get_risk_context db).current_quantity = (n : ℚ) →
      (validate_trade cfg rec db).1.approved = true →
      (validate_trade cfg rec db).1.approved_shares = some n) := by
  rw [validate_trade_fst_sell cfg rec db hact]
  simp only [validate_sell]
  split
  next hq =>
    refine ⟨?_, ?_, ?_⟩
    · constructor
      · intro hcon; cases hcon
      · intro hpos; linarith
    · intro hcon; cases hcon
    · intro n hn hcon; cases hcon
  next hq =>
    push_neg at hq
    refine ⟨?_, ?_, ?_⟩
    · simp [hq]
    · intro _; rfl
    · intro n hn _
      simp only [Option.some.injEq]
      rw [hn, pyInt_intCast]

/-- Witness for the amended C5: with 10 shares held the SELL is approved
and carries the full 10 shares. -/
theorem sell_approves_truncated_quantity_witness :
    recSellPlain.action = "SELL" ∧
    ((validate_trade defaultRiskConfig recSellPlain
        dbVolatileSell).1.approved = true ↔
      0 < (get_risk_context dbVolatileSell).current_quantity) ∧
    (validate_trade defaultRiskConfig recSellPlain
      dbVolatileSell).1.approved_shares = some 10 :=
  ⟨rfl,
   (sell_approves_truncated_quantity defaultRiskConfig recSellPlain
     dbVolatileSell rfl).1,
   (sell_approves_truncated_quantity defaultRiskConfig recSellPlain
     dbVolatileSell rfl).2.2 10
     (by norm_num [get_risk_context, dbVolatileSell])
     (by rw [eval_volatile_sell])⟩

/-- C6, counterexample: a HOLD recommendation returns at line 73 of
`risk_controller.py`, before `_log_decision`, so the call appends no
`risk_decisions` row — not the one row the claim requires. -/
theorem hold_writes_no_audit_row :
    (validate_trade defaultRiskConfig recHoldPlain dbEmpty).2 = [] ∧
    (validate_trade defaultRiskConfig recHoldPlain dbEmpty).2.length ≠ 1 := by
  constructor <;> simp [validate_trade, recHoldPlain]

/-- C6, amended: every `validate_trade` call with a non-HOLD action —
approved or vetoed — appends exactly one audit row, while a HOLD call
appends none. -/
theorem audit_row_iff_non_hold (cfg : RiskConfig) (rec : Recommendation)
    (db : DB) :
    (rec.action ≠ "HOLD" → (validate_trade cfg rec db).2.length = 1) ∧
    (rec.action = "HOLD" → (validate_trade cfg rec db).2 = []) := by
  constructor
  · intro h; simp [validate_trade, h]
  · intro h; simp [validate_trade, h]

/-- Witness for the amended C6: one audit row for a BUY, none for a
HOLD. -/
theorem audit_row_iff_non_hold_witness :
    (recBuyPlain.action ≠ "HOLD" ∧
      (validate_trade defaultRiskConfig recBuyPlain dbEmpty).2.length = 1) ∧
    (recHoldPlain.action = "HOLD" ∧
      (validate_trade defaultRiskConfig recHoldPlain dbEmpty).2 = []) :=
  ⟨⟨by decide,
    (audit_row_iff_non_hold defaultRiskConfig recBuyPlain dbEmpty).1
      (by decide)⟩,
   ⟨rfl,
    (audit_row_iff_non_hold defaultRiskConfig recHoldPlain dbEmpty).2 rfl⟩⟩

/-- C9: the approved BUY on `dbPositionPct` reports
`position_pct = some 30`, exceeding the configured cap of 20% even though
`approved_cost` (2000) was correctly reduced to the cap — line 201 of
`risk_controller.py` reports `new_position_value` from before the
position-size reduction. -/
theorem position_pct_exceeds_cap :
    (validate_trade defaultRiskConfig recStop95
      dbPositionPct).1.approved = true ∧
    (validate_trade defaultRiskConfig recStop95
      dbPositionPct).1.approved_cost = some 2000 ∧
    (validate_trade defaultRiskConfig recStop95
      dbPositionPct).1.position_pct = some 30 ∧
    defaultRiskConfig.max_position_size_pct * 100 = 20 ∧ ((20 : ℚ) < 30) := by
  refine ⟨?_, ?_, ?_, by norm_num [defaultRiskConfig], by norm_num⟩ <;>
    rw [eval_position_pct_buy]

/-- C10: with no portfolio snapshot the risk context defaults equity and
cash to 10000, against which a BUY can be approved (15 shares, 1500); with
no market row price and atr default to 0 and every BUY is vetoed by the
price sanity check. -/
theorem default_context_behavior :
    (∀ db : DB, db.portfolio = none →
      (get_risk_context db).portfolio_equity = 10000 ∧
      (get_risk_context db).cash_balance = 10000) ∧
    ((validate_trade defaultRiskConfig recBuyPlain
        dbNoPortfolio).1.approved = true ∧
     (validate_trade defaultRiskConfig recBuyPlain
        dbNoPortfolio).1.approved_cost = some 1500) ∧
    (∀ db : DB, db.market = none →
      (get_risk_context db).price = 0 ∧ (get_risk_context db).atr = 0) ∧
    (∀ (cfg : RiskConfig) (rec : Recommendation) (db : DB),
      rec.action = "BUY" → db.market = none →
      (validate_trade cfg rec db).1 =
        vetoD ("Invalid price data for " ++ rec.symbol)) := by
  refine ⟨?_, ⟨?_, ?_⟩, ?_, ?_⟩
  · intro db h
    constructor <;> simp [get_risk_context, h]
  · rw [eval_noportfolio_buy]
  · rw [eval_noportfolio_buy]
  · intro db h
    constructor <;> simp [get_risk_context, h]
  · intro cfg rec db hact hmkt
    rw [validate_trade_fst_buy cfg rec db hact]
    have hpr : (get_risk_context db).price = 0 := by
      simp [get_risk_context, hmkt]
    simp [validate_buy, hpr]

/-- Witness for C10, instantiating both universally quantified parts. -/
theorem default_context_behavior_witness :
    (dbNoPortfolio.portfolio = none ∧
      (get_risk_context dbNoPortfolio).portfolio_equity = 10000 ∧
      (get_risk_context dbNoPortfolio).cash_balance = 10000) ∧
    (dbEmpty.market = none ∧
      (validate_trade defaultRiskConfig recBuyPlain dbEmpty).1 =
        vetoD ("Invalid price data for " ++ recBuyPlain.symbol)) :=
  ⟨⟨rfl, default_context_behavior.1 dbNoPortfolio rfl⟩,
   ⟨rfl, default_context_behavior.2.2.2 defaultRiskConfig recBuyPlain
      dbEmpty rfl rfl⟩⟩

/-! ## Retry-loop lemmas -/

/-- The loop invokes `call_fn` at most `fuel` times. -/
theorem retryLoop_calls_le (outcome : ℕ → CallOutcome) (maxR : ℕ)
    (delay : ℚ) :
    ∀ (fuel attempt : ℕ),
      (retryLoop outcome maxR delay attempt fuel).calls ≤ fuel := by
  intro fuel
  induction fuel with
  | zero => intro attempt; simp [retryLoop]
  | succ f ih =>
    intro attempt
    simp only [retryLoop]
    cases houtcome : outcome attempt with
    | success v => simp
    | raises e =>
      dsimp only
      split_ifs with hrl hlt
      · have := ih (attempt + 1)
        dsimp only
        omega
      · dsimp only
        omega
      · dsimp only
        omega

/-- When every attempt up to `maxR` is rate-limited, the loop performs all
its iterations, sleeping the exponential backoff before each retry. -/
theorem retryLoop_all_rate_limited (outcome : ℕ → CallOutcome) (maxR : ℕ)
    (delay : ℚ)
    (hall : ∀ j, j ≤ maxR → ∃ e, outcome j = .raises e ∧
      is_rate_limit_error e = true) :
    ∀ (fuel attempt : ℕ), attempt + fuel = maxR + 1 →
      retryLoop outcome maxR delay attempt fuel =
        ⟨none, fuel,
         (List.range' attempt (fuel - 1)).map (fun i => delay * 2 ^ i)⟩ := by
  intro fuel
  induction fuel with
  | zero => intro attempt hinv; simp [retryLoop]
  | succ f ih =>
    intro attempt hinv
    obtain ⟨e, he, hrl⟩ := hall attempt (by omega)
    simp only [retryLoop, he, hrl, if_true]
    rcases Nat.eq_zero_or_pos f with hf | hf
    · subst hf
      rw [if_neg (by omega : ¬ attempt < maxR)]
      simp
    · rw [if_pos (by omega : attempt < maxR), ih (attempt + 1) (by omega)]
      have hf1 : f - 1 + 1 = f := by omega
      simp only [Nat.add_sub_cancel]
      rw [← hf1, List.range'_succ]
      simp [hf1]

/-- When the first non-rate-limited attempt is a fatal (non-429) exception
at index `k`, the loop stops there: `none` is returned after exactly
`k + 1 - attempt` further invocations. -/
theorem retryLoop_first_fatal (outcome : ℕ → CallOutcome) (maxR : ℕ)
    (delay : ℚ) (k : ℕ) (e : PyExceptionInfo)
    (hke : outcome k = .raises e) (hkrl : is_rate_limit_error e = false)
    (hprev : ∀ j, j < k → ∃ e2, outcome j = .raises e2 ∧
      is_rate_limit_error e2 = true)
    (hk : k ≤ maxR) :
    ∀ (fuel attempt : ℕ), attempt + fuel = maxR + 1 → attempt ≤ k →
      (retryLoop outcome maxR delay attempt fuel).result = none ∧
      (retryLoop outcome maxR delay attempt fuel).calls = k + 1 - attempt := by
  intro fuel
  induction fuel with
  | zero =>
    intro attempt hinv hle
    exfalso
    omega
  | succ f ih =>
    intro attempt hinv hle
    rcases eq_or_lt_of_le hle with heq | hlt
    · subst heq
      simp only [retryLoop, hke, hkrl]
      refine ⟨?_, ?_⟩ <;> simp <;> omega
    · obtain ⟨e2, he2, hrl2⟩ := hprev attempt hlt
      simp only [retryLoop, he2, hrl2, if_true]
      rw [if_pos (by omega : attempt < maxR)]
      obtain ⟨hres, hcalls⟩ := ih (attempt + 1) (by omega) (by omega)
      refine ⟨hres, ?_⟩
      dsimp only
      omega

/-! ## Claims about the call wrapper, admission and idempotency guard -/

/-- C7: `call_with_retry` invokes the wrapped function at most
`max_retries + 1` times; an attempt raising a non-rate-limit error makes it
return `none` at once with no further attempts; when every attempt is
rate-limited it sleeps `base_delay * 2 ^ attempt` between attempts and
returns `none` after exhausting all `max_retries + 1` attempts. -/
theorem call_with_retry_policy (outcome : ℕ → CallOutcome)
    (max_retries : ℕ) (base_delay : ℚ) :
    (call_with_retry outcome max_retries base_delay).calls
      ≤ max_retries + 1 ∧
    (∀ k, k ≤ max_retries →
      (∀ j, j < k → ∃ e, outcome j = .raises e ∧
        is_rate_limit_error e = true) →
      ∀ e, outcome k = .raises e → is_rate_limit_error e = false →
        (call_with_retry outcome max_retries base_delay).result = none ∧
        (call_with_retry outcome max_retries base_delay).calls = k + 1) ∧
    ((∀ j, j ≤ max_retries → ∃ e, outcome j = .raises e ∧
        is_rate_limit_error e = true) →
      (call_with_retry outcome max_retries base_delay).result = none ∧
      (call_with_retry outcome max_retries base_delay).calls
        = max_retries + 1 ∧
      (call_with_retry outcome max_retries base_delay).sleeps =
        (List.range max_retries).map (fun i => base_delay * 2 ^ i)) := by
  refine ⟨retryLoop_calls_le outcome max_retries base_delay
    (max_retries + 1) 0, ?_, ?_⟩
  · intro k hk hprev e hke hkrl
    obtain ⟨hres, hcalls⟩ := retryLoop_first_fatal outcome max_retries
      base_delay k e hke hkrl hprev hk (max_retries + 1) 0 (by omega)
      (by omega)
    exact ⟨hres, by rw [call_with_retry]; omega⟩
  · intro hall
    have h := retryLoop_all_rate_limited outcome max_retries base_delay hall
      (max_retries + 1) 0 (by omega)
    rw [call_with_retry, h]
    refine ⟨rfl, rfl, ?_⟩
    simp [List.range_eq_range']

/-- Witness for C7: three straight rate-limit failures with
`max_retries = 2` and `base_delay = 10` give `none` after 3 calls and
sleeps of 10 and 20 seconds. -/
theorem call_with_retry_policy_witness :
    (∀ j, j ≤ 2 → ∃ e, outcomeAllRateLimited j = .raises e ∧
      is_rate_limit_error e = true) ∧
    ((call_with_retry outcomeAllRateLimited 2 10).result = none ∧
     (call_with_retry outcomeAllRateLimited 2 10).calls = 2 + 1 ∧
     (call_with_retry outcomeAllRateLimited 2 10).sleeps =
       (List.range 2).map (fun i => (10 : ℚ) * 2 ^ i)) :=
  ⟨fun j hj => ⟨⟨"ResourceExhausted", "quota exceeded"⟩, rfl, by decide⟩,
   (call_with_retry_policy outcomeAllRateLimited 2 10).2.2
     (fun j hj => ⟨⟨"ResourceExhausted", "quota exceeded"⟩, rfl, by decide⟩)⟩

/-! ## Admission lemmas -/

/-- With a non-terminal job on the ledger, no admission attempt — whatever
its mode — succeeds or changes the ledger. -/
theorem endpoint_not_ok_of_nonterminal (mode : String) (st : Ledger)
    (h : 0 < st.rows.countP (fun r => nonTerminal r)) :
    (run_orchestrator_endpoint mode st).1.isOk = false ∧
    (run_orchestrator_endpoint mode st).2 = st := by
  unfold run_orchestrator_endpoint
  split_ifs with h1
  · exact ⟨rfl, rfl⟩
  · exact ⟨rfl, rfl⟩

/-- A clean ledger admits any valid mode, inserting exactly one pending
row. -/
theorem endpoint_admits_clean (mode : String) (st : Ledger)
    (hmode : mode ∈ validModes)
    (hclean : ∀ r ∈ st.rows, nonTerminal r = false) :
    run_orchestrator_endpoint mode st =
      (.ok st.nextId,
       ⟨st.rows ++ [⟨st.nextId, mode, "pending", "manual"⟩],
        st.nextId + 1⟩) := by
  have hcnt : st.rows.countP (fun r => nonTerminal r) = 0 :=
    List.countP_eq_zero.mpr (fun r hr => by simp [hclean r hr])
  simp [run_orchestrator_endpoint, hmode, hcnt]

/-- Once the ledger is dirty, a whole sequence of admission attempts yields
no success at all. -/
theorem admitSeq_no_ok_of_dirty :
    ∀ (modes : List String) (st : Ledger),
      0 < st.rows.countP (fun r => nonTerminal r) →
      (admitSeq modes st).1.countP (fun r => r.isOk) = 0 := by
  intro modes
  induction modes with
  | nil => intro st h; rfl
  | cons m ms ih =>
    intro st h
    obtain ⟨hok, hstate⟩ := endpoint_not_ok_of_nonterminal m st h
    simp only [admitSeq, List.countP_cons, hstate, ih st h, hok]
    simp

/-- C2: admission is an atomic check-and-insert. With any `pending` or
`running` job on the ledger, a valid-mode POST returns 409 and leaves the
ledger untouched; with none, it inserts exactly one new `pending` row and
returns its id; and of any serialized burst of valid admission attempts
against a clean ledger, exactly one succeeds. -/
theorem admission_single_flight :
    (∀ (mode : String) (st : Ledger), mode ∈ validModes →
      (∃ r ∈ st.rows, nonTerminal r = true) →
      run_orchestrator_endpoint mode st = (.conflict, st)) ∧
    (∀ (mode : String) (st : Ledger), mode ∈ validModes →
      (∀ r ∈ st.rows, nonTerminal r = false) →
      run_orchestrator_endpoint mode st =
        (.ok st.nextId,
         ⟨st.rows ++ [⟨st.nextId, mode, "pending", "manual"⟩],
          st.nextId + 1⟩)) ∧
    (∀ (modes : List String) (st : Ledger), modes ≠ [] →
      (∀ m ∈ modes, m ∈ validModes) →
      (∀ r ∈ st.rows, nonTerminal r = false) →
      (admitSeq modes st).1.countP (fun r => r.isOk) = 1) := by
  refine ⟨?_, ?_, ?_⟩
  · intro mode st hmode hdirty
    have hcnt : 0 < st.rows.countP (fun r => nonTerminal r) :=
      List.countP_pos_iff.mpr hdirty
    simp [run_orchestrator_endpoint, hmode, hcnt]
  · intro mode st hmode hclean
    exact endpoint_admits_clean mode st hmode hclean
  · intro modes st hne hvalid hclean
    cases modes with
    | nil => exact absurd rfl hne
    | cons m ms =>
      have hfirst := endpoint_admits_clean m st (hvalid m (by simp)) hclean
      have hdirty : 0 < (Ledger.mk
          (st.rows ++ [⟨st.nextId, m, "pending", "manual"⟩])
          (st.nextId + 1)).rows.countP (fun r => nonTerminal r) :=
        List.countP_pos_iff.mpr
          ⟨⟨st.nextId, m, "pending", "manual"⟩, by simp, rfl⟩
      simp only [admitSeq, hfirst, List.countP_cons,
        admitSeq_no_ok_of_dirty ms _ hdirty]
      simp [RunResult.isOk]

/-- Witness for C2: three serialized attempts against an empty ledger give
exactly one success. -/
theorem admission_single_flight_witness :
    ((["market", "market", "postmarket"] : List String) ≠ []) ∧
    (admitSeq ["market", "market", "postmarket"] ledgerEmpty).1.countP
      (fun r => r.isOk) = 1 :=
  ⟨by decide,
   admission_single_flight.2.2 ["market", "market", "postmarket"]
     ledgerEmpty (by decide) (by decide) (by intro r hr; cases hr)⟩

/-- C8: when the ledger already holds a `completed` postmarket run dated
today, `run_postmarket` returns at once: no notification, no portfolio or
risk read, no new run row. -/
theorem postmarket_skip_when_completed_today (today : ℤ)
    (rows : List RunLedgerRow) (summaryRaises : Bool)
    (h : ∃ r ∈ rows, r.mode = "postmarket" ∧ r.status = "completed" ∧
      r.started_at_day = some today) :
    run_postmarket today rows summaryRaises = ([], rows) := by
  have hg : has_run_today rows "postmarket" today = true := by
    obtain ⟨r, hmem, h1, h2, h3⟩ := h
    simp only [has_run_today, decide_eq_true_eq]
    exact List.countP_pos_iff.mpr ⟨r, hmem, by simp [h1, h2, h3]⟩
  simp [run_postmarket, hg]

/-- Witness for C8: with one completed postmarket row dated today, the
routine returns the empty effect trace and the unchanged ledger. -/
theorem postmarket_skip_when_completed_today_witness :
    (∃ r ∈ pmRowsToday, r.mode = "postmarket" ∧ r.status = "completed" ∧
      r.started_at_day = some 20251012) ∧
    run_postmarket 20251012 pmRowsToday false = ([], pmRowsToday) :=
  ⟨⟨⟨"postmarket", "completed", some 20251012⟩, by simp [pmRowsToday],
     rfl, rfl, rfl⟩,
   postmarket_skip_when_completed_today 20251012 pmRowsToday false
     ⟨⟨"postmarket", "completed", some 20251012⟩, by simp [pmRowsToday],
      rfl, rfl, rfl⟩⟩

end MyTrading
